import Mathlib

/-!
Shallow embedding of the session-orchestration core of the aqlinks voice
agent (`src/aqlinks/agent/voice_agent.py`), together with theorems settling
the frozen claims about it.

Numeric audio samples are modelled as rationals (the Python code uses
floats).  The per-frame root-mean-square energy comparison
`sqrt(mean(x^2)) > t` is embedded as the equivalent squared comparison
`mean(x^2) > t^2` (both sides are nonnegative and squaring is strictly
monotone on nonnegative rationals), which keeps every definition
executable.
-/

/-- Agent connection states (`AgentState` enum, voice_agent.py lines 63-69). -/
inductive AgentState where
  | disconnected
  | connecting
  | connected
  | processing
  | speaking
deriving DecidableEq, Repr

/-- Role tag of a conversation turn (the `"role"` field of the history
dicts in `_get_llm_response`). -/
inductive Role where
  | user
  | assistant
deriving DecidableEq, Repr

/-- One role-tagged conversation turn (`{"role": ..., "content": ...}`). -/
structure Msg where
  role : Role
  content : String
deriving DecidableEq, Repr

/-- The configuration fields of `AgentConfig` (voice_agent.py lines 113-136)
that the verified core reads.  Values are the dataclass defaults. -/
structure AgentConfig where
  sample_rate : ℚ := 48000
  channels : ℚ := 1
  vad_threshold : ℚ := 1 / 100000000
  silence_duration : ℚ := 3 / 2
deriving DecidableEq, Repr

/-- The default `AgentConfig()` instance. -/
def agentConfigDefault : AgentConfig := {}

/-- Mean of the squared samples of a frame; `mean(audio_data ** 2)` in
`_detect_speech`.  For the empty frame this is `0/0 = 0` in ℚ, but
`detect_speech` guards that case away exactly as the code does. -/
def meanSq (xs : List ℚ) : ℚ :=
  (xs.map (fun x => x * x)).sum / (xs.length : ℚ)

/-- The hardcoded local constant `speech_threshold = 0.05` of
`_detect_speech` (voice_agent.py line 530). -/
def speechThreshold : ℚ := 1 / 20

/-- `VoiceAgent._detect_speech` (voice_agent.py lines 519-540): returns
`False` on an empty frame, otherwise compares the RMS energy against the
hardcoded `speech_threshold = 0.05`.  The comparison
`sqrt(meanSq xs) > 0.05` is embedded as `meanSq xs > 0.05 * 0.05`. -/
def detect_speech (xs : List ℚ) : Bool :=
  if xs.length = 0 then false
  else decide (speechThreshold * speechThreshold < meanSq xs)

/-- Modelled from the spec: the VAD rule as claim C4 states it — speech iff
RMS energy exceeds `AgentConfig.vad_threshold` — again with the squared
comparison.  Used only to compare the spec's rule with `detect_speech`. -/
def specVadSpeech (cfg : AgentConfig) (xs : List ℚ) : Bool :=
  if xs.length = 0 then false
  else decide (cfg.vad_threshold * cfg.vad_threshold < meanSq xs)

/-- `VoiceAgent._set_state` (voice_agent.py lines 716-722) as a function of
the current state and the requested state.  Returns the new stored state
and `some t` when the state-change notification fired with payload `t`
(`none` when no notification fired). -/
def set_state (s t : AgentState) : AgentState × Option AgentState :=
  if s ≠ t then (t, some t) else (s, none)

/-- Modelled from the spec: the legal transitions of §4.3
(Disconnected→Connecting, Connecting→Connected, Connected→Processing,
Processing→Speaking, Speaking→Connected, any→Disconnected).  Used only to
compare the spec's transition relation with `set_state`. -/
def specLegalTransition : AgentState → AgentState → Bool
  | .disconnected, .connecting => true
  | .connecting, .connected => true
  | .connected, .processing => true
  | .processing, .speaking => true
  | .speaking, .connected => true
  | _, .disconnected => true
  | _, _ => false

/-- Truncation toward zero, the semantics of numpy's `astype(np.int16)`
cast on a float value (overflow wrapping aside, which never matters for
in-range samples). -/
def truncInt (q : ℚ) : Int :=
  if q < 0 then -(⌊-q⌋) else ⌊q⌋

/-- `(audio_data * 32767).astype(np.int16)` (voice_agent.py line 453):
quantize a float frame to 16-bit fixed point for buffering. -/
def quantize (xs : List ℚ) : List Int :=
  xs.map (fun x => truncInt (x * 32767))

/-- The fixed fallback reply returned by `_get_llm_response` when the
generation call raises (voice_agent.py line 662). -/
def fallbackReply : String :=
  "I apologize, but I encountered an error processing your request."

/-- The history-trim step of `_get_llm_response` (voice_agent.py lines
629-631): `if len(h) > 10: h = h[-10:]`. -/
def trimHistory (h : List Msg) : List Msg :=
  if h.length > 10 then h.drop (h.length - 10) else h

/-- `VoiceAgent._get_llm_response` (voice_agent.py lines 620-662) as a
function of the current history, the user text, and the outcome of the
generation call (`some reply` on success, `none` when the call raises).
Returns the new history and the reply text used for the rest of the turn.
The code appends the user turn, trims to the last 10 entries, calls the
model, and on success appends the assistant turn (with no further trim);
the `except` branch returns the fallback text with the history as it stood
at the raise point. -/
def get_llm_response (h : List Msg) (text : String) (llmReply : Option String) :
    List Msg × String :=
  let h1 := trimHistory (h ++ [⟨Role.user, text⟩])
  match llmReply with
  | some r => (h1 ++ [⟨Role.assistant, r⟩], r)
  | none => (h1, fallbackReply)

/-- Iterate `_get_llm_response` over a sequence of turns (user text paired
with the generation outcome), starting from the empty history — the
history evolution across a session. -/
def runTurns (turns : List (String × Option String)) : List Msg :=
  turns.foldl (fun h t => (get_llm_response h t.1 t.2).1) []

/-- Outcome of one run of `_process_speech`: the state the turn ends in,
whether the generation and synthesis collaborators were invoked, the text
handed to synthesis, and the resulting conversation history. -/
structure TurnOutcome where
  finalState : AgentState
  llmCalled : Bool
  ttsCalled : Bool
  ttsInput : Option String
  history : List Msg
deriving DecidableEq, Repr

/-- `VoiceAgent._process_speech` (voice_agent.py lines 542-585) as a
function of the entry state, the collected speech buffer, the history, and
the outcomes of the two collaborator calls (`stt = none` models a raised
transcription error, which `_transcribe_audio` catches and turns into `""`;
`llm = none` models a raised generation error).  An empty buffer returns
immediately with nothing touched; a transcript that is blank after
trimming sets the state to Connected and stops; otherwise the pipeline
runs generation then synthesis, and the `finally` blocks of
`_synthesize_and_send` and `_process_speech` leave the state Connected. -/
def process_speech (entry : AgentState) (buffer : List (List Int))
    (h : List Msg) (stt llmReply : Option String) : TurnOutcome :=
  if buffer = [] then
    ⟨entry, false, false, none, h⟩
  else
    let transcript := stt.getD ""
    if transcript.trim = "" then
      ⟨AgentState.connected, false, false, none, h⟩
    else
      let res := get_llm_response h transcript llmReply
      ⟨AgentState.connected, true, true, some res.2, res.1⟩

/-- Clamped linear interpolation of a sample list at rational position `x`,
against the implicit grid `0, 1, …, length-1`: the semantics of
`np.interp(x, np.arange(len(fp)), fp)` at one point. -/
def interpAt (fp : List ℚ) (x : ℚ) : ℚ :=
  if fp.length = 0 then 0
  else if x ≤ 0 then fp.getD 0 0
  else if ((fp.length : ℚ) - 1) ≤ x then fp.getD (fp.length - 1) 0
  else
    let k := Int.toNat ⌊x⌋
    let a := fp.getD k 0
    let b := fp.getD (k + 1) 0
    a + (x - (k : ℚ)) * (b - a)

/-- The `i`-th value of `np.linspace(0, stop, num)`. -/
def linspaceVal (stop : ℚ) (num i : ℕ) : ℚ :=
  if num ≤ 1 then 0 else stop * (i : ℚ) / ((num : ℚ) - 1)

/-- `VoiceAgent._resample_audio` (voice_agent.py lines 506-517): identity
when the rates agree, otherwise linear interpolation at
`int(len(audio) * target_sr / orig_sr)` positions spread with `linspace`
over `[0, len-1]`.  Python's `int()` truncates toward zero; for the
nonnegative length computation this is `Int.toNat ∘ Int.floor`.
When the rates differ and the input is empty, `np.interp` is called with
an empty sample-point array `xp = np.arange(0)` and raises
`ValueError: array of sample points is empty`; that raise is modelled as
`none`.  (A zero `new_length` with a nonempty input does not raise: the
positions array is empty but `xp` is not, so the result is the empty
array.) -/
def resample_audio (audio : List ℚ) (origSr targetSr : ℚ) : Option (List ℚ) :=
  if origSr = targetSr then some audio
  else if audio.length = 0 then none
  else
    let newLength := Int.toNat ⌊targetSr / origSr * (audio.length : ℚ)⌋
    some ((List.range newLength).map
      (fun i => interpAt audio (linspaceVal ((audio.length : ℚ) - 1) newLength i)))

/-- The mutable per-track ingest state read and written by the frame loop
of `_process_audio_track`: the agent state, the `is_speaking` flag, the
`last_speech_time` stamp, the rolling `audio_buffer` and the transient
`speech_buffer`. -/
structure IngestState where
  agentState : AgentState
  is_speaking : Bool
  last_speech_time : ℚ
  audio_buffer : List (List Int)
  speech_buffer : List (List Int)
deriving DecidableEq, Repr

/-- One iteration of the frame loop of `VoiceAgent._process_audio_track`
(voice_agent.py lines 453-486), from the point where the decoded,
normalized, gain-boosted and resampled float frame `samples` is in hand at
event-loop time `now`.  The code appends the quantized frame to the
rolling buffer, skips VAD entirely while the agent state is Speaking, and
otherwise applies the VAD rule; the returned Bool is true exactly when
this frame scheduled a flush of the utterance into `_process_speech`.
On a flush the code resets `is_speaking` and clears `audio_buffer` but not
`speech_buffer`. -/
def processFrame (cfg : AgentConfig) (st : IngestState) (samples : List ℚ)
    (now : ℚ) : IngestState × Bool :=
  if st.agentState = AgentState.speaking then
    ({ st with audio_buffer := st.audio_buffer ++ [quantize samples] }, false)
  else if detect_speech samples then
    if st.is_speaking then
      ({ st with audio_buffer := st.audio_buffer ++ [quantize samples],
                 last_speech_time := now,
                 speech_buffer := st.speech_buffer ++ [quantize samples] }, false)
    else
      ({ st with audio_buffer := st.audio_buffer ++ [quantize samples],
                 last_speech_time := now,
                 is_speaking := true,
                 speech_buffer := [quantize samples] }, false)
  else if st.is_speaking then
    if cfg.silence_duration ≤ now - st.last_speech_time then
      ({ st with audio_buffer := [], is_speaking := false }, true)
    else
      ({ st with audio_buffer := st.audio_buffer ++ [quantize samples] }, false)
  else
    ({ st with audio_buffer := st.audio_buffer ++ [quantize samples] }, false)

/-- Run the frame loop over a list of (frame, arrival-time) pairs,
collecting the arrival times at which a flush was scheduled. -/
def runFrames (cfg : AgentConfig) : IngestState → List (List ℚ × ℚ) →
    IngestState × List ℚ
  | st, [] => (st, [])
  | st, f :: rest =>
    ((runFrames cfg (processFrame cfg st f.1 f.2).1 rest).1,
     (if (processFrame cfg st f.1 f.2).2 then [f.2] else [])
       ++ (runFrames cfg (processFrame cfg st f.1 f.2).1 rest).2)

/-! ## Helper lemmas -/

theorem trimHistory_length (h : List Msg) :
    (trimHistory h).length = min h.length 10 := by
  unfold trimHistory
  split <;> simp <;> omega

theorem trimHistory_concat_getLast (h : List Msg) (m : Msg) :
    (trimHistory (h ++ [m])).getLast? = some m := by
  unfold trimHistory
  split
  · next hl =>
    rw [List.drop_append_of_le_length
      (by simp only [List.length_append, List.length_cons, List.length_nil]; omega)]
    exact List.getLast?_concat _
  · exact List.getLast?_concat _

/-! ## Claim theorems -/

/-- C10: `_detect_speech` returns `False` on the empty frame, before any
energy computation, so the VAD classification is total there. -/
theorem detect_speech_empty_frame : detect_speech ([] : List ℚ) = false := rfl

/-- C4 counterexample: the frame `[0.01]` has RMS energy `0.01`, which
exceeds the configured `vad_threshold = 1e-8` but not the hardcoded
`speech_threshold = 0.05`; `_detect_speech` classifies it as silence while
the spec's config-threshold rule classifies it as speech. -/
theorem vad_threshold_not_from_config :
    detect_speech [(1 : ℚ)/100] = false ∧
    specVadSpeech agentConfigDefault [(1 : ℚ)/100] = true := by
  constructor
  · with_unfolding_all rfl
  · with_unfolding_all rfl

/-- C4 amended: `_detect_speech` classifies a frame as speech iff it is
nonempty and its RMS energy exceeds the hardcoded constant
`speech_threshold = 0.05` (squared comparison); the startup configuration's
`vad_threshold` plays no part in the classification. -/
theorem detect_speech_iff_hardcoded_threshold (xs : List ℚ) :
    detect_speech xs = true ↔
      xs ≠ [] ∧ speechThreshold * speechThreshold < meanSq xs := by
  unfold detect_speech
  split
  · next hl =>
    have hx : xs = [] := List.length_eq_zero.mp hl
    simp [hx]
  · next hl =>
    have hx : xs ≠ [] := by
      intro he
      exact hl (by simp [he])
    simp [hx]

/-- C2 counterexample: the requested transition Disconnected→Speaking is
not among the §4.3 legal transitions, yet `_set_state` accepts it, stores
Speaking, and fires a notification. -/
theorem set_state_accepts_illegal_transition :
    set_state AgentState.disconnected AgentState.speaking
      = (AgentState.speaking, some AgentState.speaking) ∧
    specLegalTransition AgentState.disconnected AgentState.speaking = false := by
  exact ⟨rfl, rfl⟩

/-- C2 amended: `_set_state` performs no legality check at all: every
request whose target differs from the current state is accepted and fires
exactly one notification carrying the new state, and every same-state
request is a no-op with no notification.  (In particular every legal
§4.3 transition with a distinct target is accepted.) -/
theorem set_state_same_vs_different (s t : AgentState) :
    (s ≠ t → set_state s t = (t, some t)) ∧
    (s = t → set_state s t = (s, none)) := by
  constructor
  · intro h
    simp [set_state, h]
  · intro h
    subst h
    simp [set_state]

/-- Witness for `set_state_same_vs_different` at a concrete transition. -/
theorem set_state_same_vs_different_witness :
    set_state AgentState.connected AgentState.disconnected
      = (AgentState.disconnected, some AgentState.disconnected) :=
  (set_state_same_vs_different AgentState.connected AgentState.disconnected).1
    (by intro h; cases h)

/-- C1 counterexample: after six turns whose generation calls all succeed,
the history observed at the end of `_get_llm_response` (right after the
assistant-turn append) has 11 entries: the trim to 10 runs only after the
user-turn append, never after the assistant-turn append. -/
theorem conversationHistory_reaches_eleven :
    (runTurns [("a", some "b"), ("a", some "b"), ("a", some "b"),
               ("a", some "b"), ("a", some "b"), ("a", some "b")]).length = 11 ∧
    ¬ (runTurns [("a", some "b"), ("a", some "b"), ("a", some "b"),
                 ("a", some "b"), ("a", some "b"), ("a", some "b")]).length ≤ 10 := by
  have h : (runTurns [("a", some "b"), ("a", some "b"), ("a", some "b"),
      ("a", some "b"), ("a", some "b"), ("a", some "b")]).length = 11 := by
    with_unfolding_all rfl
  exact ⟨h, by omega⟩

/-- C1 amended: inside `_get_llm_response` the history observed right after
the user-turn append and trim has at most 10 entries; the history observed
after the assistant-turn append (and hence between turns) has at most 11
entries, for every starting history and every turn outcome. -/
theorem conversationHistory_bounds (h : List Msg) (text : String)
    (llmReply : Option String) :
    (trimHistory (h ++ [⟨Role.user, text⟩])).length ≤ 10 ∧
    (get_llm_response h text llmReply).1.length ≤ 11 := by
  have htrim : (trimHistory (h ++ [⟨Role.user, text⟩])).length ≤ 10 := by
    rw [trimHistory_length]
    omega
  refine ⟨htrim, ?_⟩
  cases llmReply with
  | some r =>
    simp only [get_llm_response, List.length_append, List.length_cons,
      List.length_nil]
    omega
  | none =>
    simpa only [get_llm_response] using le_trans htrim (by omega)

/-- C9 counterexample: after five successful turns the history has 10
entries; a further turn whose generation call fails leaves the history at
10 entries — not 11 — because the user-turn append pushed it to 11 and the
trim immediately cut it back to 10. -/
theorem error_path_history_not_one_longer :
    (runTurns [("a", some "b"), ("a", some "b"), ("a", some "b"),
               ("a", some "b"), ("a", some "b")]).length = 10 ∧
    ((get_llm_response (runTurns [("a", some "b"), ("a", some "b"),
        ("a", some "b"), ("a", some "b"), ("a", some "b")]) "x" none).1).length = 10 ∧
    ((get_llm_response (runTurns [("a", some "b"), ("a", some "b"),
        ("a", some "b"), ("a", some "b"), ("a", some "b")]) "x" none).1).length
      ≠ (runTurns [("a", some "b"), ("a", some "b"), ("a", some "b"),
                   ("a", some "b"), ("a", some "b")]).length + 1 := by
  have h1 : (runTurns [("a", some "b"), ("a", some "b"), ("a", some "b"),
      ("a", some "b"), ("a", some "b")]).length = 10 := by
    with_unfolding_all rfl
  have h2 : ((get_llm_response (runTurns [("a", some "b"), ("a", some "b"),
      ("a", some "b"), ("a", some "b"), ("a", some "b")]) "x" none).1).length = 10 := by
    with_unfolding_all rfl
  exact ⟨h1, h2, by omega⟩

/-- C9 amended: when the generation call fails the history is exactly the
trimmed user-appended list — the user turn is retained (it is the last
entry) and no assistant turn is appended — so its length is
`min (old + 1) 10` rather than always `old + 1`; on success the assistant
turn is appended on top of that same list, giving `min (old + 1) 10 + 1`.
For histories shorter than 10 entries this is the claimed +1 / +2. -/
theorem llm_history_paths (h : List Msg) (text reply : String) :
    (get_llm_response h text none).1 = trimHistory (h ++ [⟨Role.user, text⟩]) ∧
    (get_llm_response h text none).1.length = min (h.length + 1) 10 ∧
    (get_llm_response h text none).1.getLast? = some ⟨Role.user, text⟩ ∧
    (get_llm_response h text (some reply)).1
      = trimHistory (h ++ [⟨Role.user, text⟩]) ++ [⟨Role.assistant, reply⟩] ∧
    (get_llm_response h text (some reply)).1.length = min (h.length + 1) 10 + 1 := by
  refine ⟨rfl, ?_, ?_, rfl, ?_⟩
  · simp only [get_llm_response, trimHistory_length, List.length_append,
      List.length_cons, List.length_nil]
  · exact trimHistory_concat_getLast h _
  · simp only [get_llm_response, List.length_append, trimHistory_length,
      List.length_cons, List.length_nil]

/-- C6: a transcription failure (modelled as `stt = none`, which
`_transcribe_audio` turns into the empty transcript) or any transcript that
is blank after trimming makes `_process_speech` skip both the generation
call and the synthesis call and return the state directly to Connected,
leaving the history untouched. -/
theorem blank_transcript_short_circuits (entry : AgentState)
    (buffer : List (List Int)) (h : List Msg) (stt llmReply : Option String)
    (hbuf : buffer ≠ [])
    (hblank : (stt.getD "").trim = "") :
    process_speech entry buffer h stt llmReply
      = ⟨AgentState.connected, false, false, none, h⟩ := by
  simp [process_speech, hbuf, hblank]

/-- Witness for `blank_transcript_short_circuits`: a failed transcription
on a one-frame utterance. -/
theorem blank_transcript_short_circuits_witness :
    process_speech AgentState.connected [[1]] [] none none
      = ⟨AgentState.connected, false, false, none, []⟩ :=
  blank_transcript_short_circuits AgentState.connected [[1]] [] none none
    (by intro h; cases h) (by with_unfolding_all rfl)

/-- C7: when the transcript is non-blank and the generation call fails,
the reply used for the rest of the turn is the fixed fallback string,
synthesis is still invoked with exactly that text, and the turn ends in
Connected. -/
theorem llm_failure_fallback_still_synthesized (entry : AgentState)
    (buffer : List (List Int)) (h : List Msg) (stt : Option String)
    (hbuf : buffer ≠ [])
    (hblank : (stt.getD "").trim ≠ "") :
    (process_speech entry buffer h stt none).llmCalled = true ∧
    (process_speech entry buffer h stt none).ttsCalled = true ∧
    (process_speech entry buffer h stt none).ttsInput = some fallbackReply ∧
    (process_speech entry buffer h stt none).finalState = AgentState.connected := by
  simp [process_speech, hbuf, hblank, get_llm_response]

/-- Witness for `llm_failure_fallback_still_synthesized`: a one-frame
utterance transcribed as "hi" whose generation call fails. -/
theorem llm_failure_fallback_still_synthesized_witness :
    (process_speech AgentState.connected [[1]] [] (some "hi") none).llmCalled = true ∧
    (process_speech AgentState.connected [[1]] [] (some "hi") none).ttsCalled = true ∧
    (process_speech AgentState.connected [[1]] [] (some "hi") none).ttsInput
      = some fallbackReply ∧
    (process_speech AgentState.connected [[1]] [] (some "hi") none).finalState
      = AgentState.connected :=
  llm_failure_fallback_still_synthesized AgentState.connected [[1]] [] (some "hi")
    (by intro h; cases h)
    (by with_unfolding_all decide)

/-! ## Frame-loop lemmas -/

theorem processFrame_agentState (cfg : AgentConfig) (st : IngestState)
    (samples : List ℚ) (now : ℚ) :
    (processFrame cfg st samples now).1.agentState = st.agentState := by
  unfold processFrame
  by_cases h1 : st.agentState = AgentState.speaking
  · simp [h1]
  · by_cases h2 : detect_speech samples = true
    · by_cases h3 : st.is_speaking = true <;> simp [h1, h2, h3]
    · by_cases h3 : st.is_speaking = true
      · by_cases h4 : cfg.silence_duration ≤ now - st.last_speech_time <;>
          simp [h1, h2, h3, h4]
      · simp [h1, h2, h3]

theorem processFrame_silent_idle (cfg : AgentConfig) (st : IngestState)
    (samples : List ℚ) (now : ℚ)
    (hsp : st.is_speaking = false)
    (hf : detect_speech samples = false) :
    (processFrame cfg st samples now).2 = false ∧
    (processFrame cfg st samples now).1.is_speaking = false := by
  unfold processFrame
  by_cases h1 : st.agentState = AgentState.speaking
  · simp [h1, hsp]
  · simp [h1, hf, hsp]

theorem processFrame_loud (cfg : AgentConfig) (st : IngestState)
    (samples : List ℚ) (now : ℚ)
    (hstate : st.agentState ≠ AgentState.speaking)
    (hf : detect_speech samples = true) :
    (processFrame cfg st samples now).2 = false ∧
    (processFrame cfg st samples now).1.is_speaking = true ∧
    (processFrame cfg st samples now).1.last_speech_time = now := by
  unfold processFrame
  by_cases h3 : st.is_speaking = true <;> simp [hstate, hf, h3]

theorem processFrame_flush (cfg : AgentConfig) (st : IngestState)
    (samples : List ℚ) (now : ℚ)
    (hstate : st.agentState ≠ AgentState.speaking)
    (hf : detect_speech samples = false)
    (hsp : st.is_speaking = true)
    (hd : cfg.silence_duration ≤ now - st.last_speech_time) :
    processFrame cfg st samples now
      = ({ st with audio_buffer := [], is_speaking := false }, true) := by
  simp [processFrame, hstate, hf, hsp, hd]

theorem processFrame_wait (cfg : AgentConfig) (st : IngestState)
    (samples : List ℚ) (now : ℚ)
    (hstate : st.agentState ≠ AgentState.speaking)
    (hf : detect_speech samples = false)
    (hsp : st.is_speaking = true)
    (hd : ¬ cfg.silence_duration ≤ now - st.last_speech_time) :
    processFrame cfg st samples now
      = ({ st with audio_buffer := st.audio_buffer ++ [quantize samples] }, false) := by
  simp [processFrame, hstate, hf, hsp, hd]

theorem runFrames_cons_snd (cfg : AgentConfig) (st : IngestState)
    (f : List ℚ × ℚ) (rest : List (List ℚ × ℚ)) :
    (runFrames cfg st (f :: rest)).2
      = (if (processFrame cfg st f.1 f.2).2 then [f.2] else [])
        ++ (runFrames cfg (processFrame cfg st f.1 f.2).1 rest).2 := rfl

theorem runFrames_cons_fst (cfg : AgentConfig) (st : IngestState)
    (f : List ℚ × ℚ) (rest : List (List ℚ × ℚ)) :
    (runFrames cfg st (f :: rest)).1
      = (runFrames cfg (processFrame cfg st f.1 f.2).1 rest).1 := rfl

theorem runFrames_append (cfg : AgentConfig) (st : IngestState)
    (a b : List (List ℚ × ℚ)) :
    (runFrames cfg st (a ++ b)).2
      = (runFrames cfg st a).2 ++ (runFrames cfg (runFrames cfg st a).1 b).2 ∧
    (runFrames cfg st (a ++ b)).1 = (runFrames cfg (runFrames cfg st a).1 b).1 := by
  induction a generalizing st with
  | nil => simp [runFrames]
  | cons f rest ih =>
    rcases ih (processFrame cfg st f.1 f.2).1 with ⟨h1, h2⟩
    constructor
    · rw [List.cons_append, runFrames_cons_snd, runFrames_cons_snd,
        runFrames_cons_fst, h1, List.append_assoc]
    · rw [List.cons_append, runFrames_cons_fst, runFrames_cons_fst]
      exact h2

theorem runFrames_silent_idle (cfg : AgentConfig) (st : IngestState)
    (fs : List (List ℚ × ℚ))
    (hsp : st.is_speaking = false)
    (hsil : ∀ f ∈ fs, detect_speech f.1 = false) :
    (runFrames cfg st fs).2 = [] := by
  induction fs generalizing st with
  | nil => rfl
  | cons f rest ih =>
    have hf : detect_speech f.1 = false := hsil f (List.mem_cons_self _ _)
    have hrest : ∀ g ∈ rest, detect_speech g.1 = false :=
      fun g hg => hsil g (List.mem_cons_of_mem _ hg)
    obtain ⟨hfl, hsp'⟩ := processFrame_silent_idle cfg st f.1 f.2 hsp hf
    rw [runFrames_cons_snd, hfl]
    simpa using ih _ hsp' hrest

theorem runFrames_loud (cfg : AgentConfig) (st : IngestState)
    (fs : List (List ℚ × ℚ)) (lf : List ℚ × ℚ)
    (hstate : st.agentState ≠ AgentState.speaking)
    (hlast : fs.getLast? = some lf)
    (hloud : ∀ f ∈ fs, detect_speech f.1 = true) :
    (runFrames cfg st fs).2 = [] ∧
    (runFrames cfg st fs).1.is_speaking = true ∧
    (runFrames cfg st fs).1.last_speech_time = lf.2 ∧
    (runFrames cfg st fs).1.agentState = st.agentState := by
  induction fs generalizing st with
  | nil => simp at hlast
  | cons f rest ih =>
    have hf : detect_speech f.1 = true := hloud f (List.mem_cons_self _ _)
    have hrest : ∀ g ∈ rest, detect_speech g.1 = true :=
      fun g hg => hloud g (List.mem_cons_of_mem _ hg)
    obtain ⟨hfl, hsp', hlst'⟩ := processFrame_loud cfg st f.1 f.2 hstate hf
    have hag' : (processFrame cfg st f.1 f.2).1.agentState = st.agentState :=
      processFrame_agentState cfg st f.1 f.2
    cases rest with
    | nil =>
      have hlf : lf = f := by simpa using hlast.symm
      subst hlf
      refine ⟨?_, hsp', hlst', hag'⟩
      rw [runFrames_cons_snd, hfl]
      simp [runFrames]
    | cons g rest' =>
      have hlast' : (g :: rest').getLast? = some lf := by
        simpa [List.getLast?_cons_cons] using hlast
      have hstate' : (processFrame cfg st f.1 f.2).1.agentState
          ≠ AgentState.speaking := by
        rw [hag']; exact hstate
      obtain ⟨t1, t2, t3, t4⟩ :=
        ih (processFrame cfg st f.1 f.2).1 hstate' hlast' hrest
      refine ⟨?_, t2, t3, ?_⟩
      · rw [runFrames_cons_snd, hfl, t1]
        simp
      · rw [runFrames_cons_fst, t4, hag']

theorem runFrames_silence (cfg : AgentConfig) (st : IngestState)
    (fs : List (List ℚ × ℚ))
    (hstate : st.agentState ≠ AgentState.speaking)
    (hsp : st.is_speaking = true)
    (hsil : ∀ f ∈ fs, detect_speech f.1 = false)
    (hdur : ∃ f ∈ fs, st.last_speech_time + cfg.silence_duration ≤ f.2) :
    (runFrames cfg st fs).2.length = 1 ∧
    ∀ u ∈ (runFrames cfg st fs).2,
      st.last_speech_time + cfg.silence_duration ≤ u := by
  induction fs generalizing st with
  | nil => simp at hdur
  | cons f rest ih =>
    have hf : detect_speech f.1 = false := hsil f (List.mem_cons_self _ _)
    have hrest : ∀ g ∈ rest, detect_speech g.1 = false :=
      fun g hg => hsil g (List.mem_cons_of_mem _ hg)
    by_cases hd : cfg.silence_duration ≤ f.2 - st.last_speech_time
    · have hstep := processFrame_flush cfg st f.1 f.2 hstate hf hsp hd
      have hidle : (runFrames cfg
          ({ st with audio_buffer := [], is_speaking := false } : IngestState)
          rest).2 = [] :=
        runFrames_silent_idle cfg _ rest rfl hrest
      have hrw : (runFrames cfg st (f :: rest)).2 = [f.2] := by
        rw [runFrames_cons_snd, hstep]
        simp [hidle]
      constructor
      · rw [hrw]
        rfl
      · intro u hu
        rw [hrw] at hu
        simp at hu
        subst hu
        linarith
    · have hstep := processFrame_wait cfg st f.1 f.2 hstate hf hsp hd
      obtain ⟨g, hg, hgle⟩ := hdur
      have hgrest : g ∈ rest := by
        rcases List.mem_cons.mp hg with h | h
        · exfalso
          apply hd
          rw [h] at hgle
          linarith
        · exact h
      have hres := ih ({ st with
          audio_buffer := st.audio_buffer ++ [quantize f.1] } : IngestState)
        hstate hsp hrest ⟨g, hgrest, hgle⟩
      have hrw : (runFrames cfg st (f :: rest)).2
          = (runFrames cfg ({ st with
              audio_buffer := st.audio_buffer ++ [quantize f.1] } :
              IngestState) rest).2 := by
        rw [runFrames_cons_snd, hstep]
        simp
      rw [hrw]
      exact hres

/-- C3 counterexample: with the session in Processing, a loud inbound frame
is still run through the VAD — it marks a new speech-start and appends to
the utterance buffer — and a silent frame past the silence boundary while
in speech triggers another flush into the pipeline, so a second utterance
can overlap the one being processed.  (VAD is skipped only for Speaking.) -/
theorem processing_frames_retrigger_vad :
    (processFrame agentConfigDefault
        ⟨AgentState.processing, false, 0, [], []⟩ [1] 5).1.is_speaking = true ∧
    (processFrame agentConfigDefault
        ⟨AgentState.processing, false, 0, [], []⟩ [1] 5).1.speech_buffer
      = [[32767]] ∧
    (processFrame agentConfigDefault
        ⟨AgentState.processing, true, 0, [], []⟩ [0] 5).2 = true := by
  refine ⟨?_, ?_, ?_⟩ <;> with_unfolding_all rfl

/-- C3 amended: the frame loop suspends VAD only while the session state is
Speaking: such a frame is appended to the rolling log and nothing else —
no speech-start, no utterance append, no flush.  Frames arriving during
Processing are handled by the ordinary VAD rules and can re-trigger the
pipeline. -/
theorem speaking_frames_only_logged (cfg : AgentConfig) (st : IngestState)
    (samples : List ℚ) (now : ℚ)
    (hst : st.agentState = AgentState.speaking) :
    processFrame cfg st samples now
      = ({ st with audio_buffer := st.audio_buffer ++ [quantize samples] },
         false) := by
  simp [processFrame, hst]

/-- Witness for `speaking_frames_only_logged` at a concrete frame. -/
theorem speaking_frames_only_logged_witness :
    processFrame agentConfigDefault
        ⟨AgentState.speaking, false, 0, [], []⟩ [1] 0
      = (⟨AgentState.speaking, false, 0, [quantize [1]], []⟩, false) :=
  speaking_frames_only_logged agentConfigDefault
    ⟨AgentState.speaking, false, 0, [], []⟩ [1] 0 rfl

/-- C5: for any speech run (consecutive speech-classified frames, the last
arriving at time `lf.2`) followed by below-threshold frames at least one of
which arrives `silence_duration` or more after `lf.2`, the frame loop
schedules exactly one flush of the utterance into the pipeline, and every
flush happens at an arrival time at or after the
`last-speech + silence_duration` boundary — never before it; the silence
frames after the flush produce no further flush.  (Stated away from the
Speaking state, where VAD is suspended.) -/
theorem speech_run_flushes_exactly_once (cfg : AgentConfig)
    (st : IngestState) (loud silent : List (List ℚ × ℚ)) (lf : List ℚ × ℚ)
    (hstate : st.agentState ≠ AgentState.speaking)
    (hlast : loud.getLast? = some lf)
    (hloud : ∀ f ∈ loud, detect_speech f.1 = true)
    (hsil : ∀ f ∈ silent, detect_speech f.1 = false)
    (hdur : ∃ f ∈ silent, lf.2 + cfg.silence_duration ≤ f.2) :
    (runFrames cfg st (loud ++ silent)).2.length = 1 ∧
    ∀ u ∈ (runFrames cfg st (loud ++ silent)).2,
      lf.2 + cfg.silence_duration ≤ u := by
  obtain ⟨l1, l2, l3, l4⟩ := runFrames_loud cfg st loud lf hstate hlast hloud
  obtain ⟨happ2, happ1⟩ := runFrames_append cfg st loud silent
  have hstate1 : (runFrames cfg st loud).1.agentState ≠ AgentState.speaking := by
    rw [l4]; exact hstate
  have hs := runFrames_silence cfg (runFrames cfg st loud).1 silent hstate1 l2
    hsil (by rw [l3]; exact hdur)
  constructor
  · rw [happ2, l1, List.nil_append]
    exact hs.1
  · intro u hu
    rw [happ2, l1, List.nil_append] at hu
    have := hs.2 u hu
    rwa [l3] at this

/-- Witness for `speech_run_flushes_exactly_once`: one loud frame at time 0
followed by one silent frame at time 2 ≥ 0 + 1.5 flushes exactly once. -/
theorem speech_run_flushes_exactly_once_witness :
    (runFrames agentConfigDefault ⟨AgentState.connected, false, 0, [], []⟩
        ([([1], 0)] ++ [([0], 2)])).2.length = 1 :=
  (speech_run_flushes_exactly_once agentConfigDefault
      ⟨AgentState.connected, false, 0, [], []⟩ [([1], 0)] [([0], 2)] ([1], 0)
      (by intro h; cases h) rfl
      (by intro f hf
          simp only [List.mem_singleton] at hf
          subst hf
          with_unfolding_all rfl)
      (by intro f hf
          simp only [List.mem_singleton] at hf
          subst hf
          with_unfolding_all rfl)
      ⟨([0], 2), by simp, by norm_num [agentConfigDefault]⟩).1

theorem resample_some (audio : List ℚ) (o t : ℚ) (ys : List ℚ)
    (h : o ≠ t) (hys : resample_audio audio o t = some ys) :
    audio.length ≠ 0 ∧ ys.length = Int.toNat ⌊t / o * (audio.length : ℚ)⌋ := by
  simp only [resample_audio, if_neg h] at hys
  by_cases hlen : audio.length = 0
  · simp [hlen] at hys
  · rw [if_neg hlen] at hys
    refine ⟨hlen, ?_⟩
    have h2 := Option.some.inj hys
    rw [← h2]
    simp

/-- C8 counterexample: the round trip does not "yield an array" for every
input.  Resampling the one-sample array `[5]` from rate 3 to rate 2
truncates the new length to 0 and returns the empty array; resampling that
back from 2 to 3 calls `np.interp` with an empty sample-point array and
raises `ValueError` (modelled as `none`) — as does resampling the empty
array directly between differing rates. -/
theorem resample_roundtrip_raises :
    resample_audio [(5 : ℚ)] 3 2 = some [] ∧
    (resample_audio [(5 : ℚ)] 3 2).bind (fun mid => resample_audio mid 2 3)
      = none ∧
    resample_audio ([] : List ℚ) 3 2 = none := by
  refine ⟨?_, ?_, ?_⟩ <;> with_unfolding_all rfl

/-- C8 amended: for equal rates `_resample_audio` returns its input
unchanged.  For differing positive rates A, B, the A→B→A round trip raises
(`none`) exactly when the input is empty or the inner length
`int(len·B/A)` truncates to 0; whenever both calls return arrays, the
result is never longer than the input and falls short by less than
`A/B + 1` samples — the truncation tolerance of the two `int(len * ratio)`
length computations. -/
theorem resample_roundtrip_length (audio : List ℚ) (A B : ℚ)
    (hA : 0 < A) (hB : 0 < B) :
    resample_audio audio A A = some audio ∧
    ∀ mid out : List ℚ, resample_audio audio A B = some mid →
      resample_audio mid B A = some out →
      out.length ≤ audio.length ∧
      (audio.length : ℚ) < (out.length : ℚ) + A / B + 1 := by
  have hid : resample_audio audio A A = some audio := by simp [resample_audio]
  refine ⟨hid, ?_⟩
  intro mid out h1 h2
  by_cases hAB : A = B
  · subst hAB
    simp only [resample_audio, if_pos] at h1 h2
    have hm := Option.some.inj h1
    have ho := Option.some.inj h2
    subst hm
    subst ho
    constructor
    · exact le_refl _
    · have hd : A / A = 1 := div_self (ne_of_gt hA)
      rw [hd]
      linarith
  · have hBA : B ≠ A := fun e => hAB e.symm
    obtain ⟨hn0, hmidlen⟩ := resample_some audio A B mid hAB h1
    obtain ⟨hmid0, houtlen⟩ := resample_some mid B A out hBA h2
    set n : ℕ := audio.length with hn
    set i1 : ℤ := ⌊B / A * (n : ℚ)⌋ with hi1
    rw [hmidlen] at houtlen
    set i2 : ℤ := ⌊A / B * ((i1.toNat : ℕ) : ℚ)⌋ with hi2
    have h1nn : (0 : ℤ) ≤ i1 := Int.floor_nonneg.mpr (by positivity)
    have hc1 : ((i1.toNat : ℕ) : ℚ) = (i1 : ℚ) := by
      exact_mod_cast Int.toNat_of_nonneg h1nn
    have h2nn : (0 : ℤ) ≤ i2 := Int.floor_nonneg.mpr (by positivity)
    have hc2 : ((i2.toNat : ℕ) : ℚ) = (i2 : ℚ) := by
      exact_mod_cast Int.toNat_of_nonneg h2nn
    have hf1le : (i1 : ℚ) ≤ B / A * (n : ℚ) := Int.floor_le _
    have hf1gt : B / A * (n : ℚ) - 1 < (i1 : ℚ) := Int.sub_one_lt_floor _
    have hf2le : (i2 : ℚ) ≤ A / B * ((i1.toNat : ℕ) : ℚ) := Int.floor_le _
    have hf2gt : A / B * ((i1.toNat : ℕ) : ℚ) - 1 < (i2 : ℚ) :=
      Int.sub_one_lt_floor _
    have hratpos : (0 : ℚ) < A / B := div_pos hA hB
    have hkey : A / B * (B / A) = 1 := by
      field_simp
    have hle : (i2 : ℚ) ≤ (n : ℚ) := by
      calc (i2 : ℚ) ≤ A / B * ((i1.toNat : ℕ) : ℚ) := hf2le
        _ = A / B * (i1 : ℚ) := by rw [hc1]
        _ ≤ A / B * (B / A * (n : ℚ)) :=
              mul_le_mul_of_nonneg_left hf1le hratpos.le
        _ = (n : ℚ) := by rw [← mul_assoc, hkey, one_mul]
    have hgt : (n : ℚ) - A / B - 1 < (i2 : ℚ) := by
      have hm1 : A / B * (B / A * (n : ℚ) - 1) < A / B * (i1 : ℚ) :=
        mul_lt_mul_of_pos_left hf1gt hratpos
      have hm2 : A / B * (B / A * (n : ℚ) - 1) = (n : ℚ) - A / B := by
        rw [mul_sub, ← mul_assoc, hkey, one_mul, mul_one]
      have hm3 : A / B * (i1 : ℚ) - 1 < (i2 : ℚ) := by
        rw [← hc1]
        exact hf2gt
      linarith
    constructor
    · rw [houtlen]
      have hq : ((i2.toNat : ℕ) : ℚ) ≤ (n : ℚ) := by
        rw [hc2]
        exact hle
      exact_mod_cast hq
    · rw [houtlen, hc2]
      linarith

/-- Witness for `resample_roundtrip_length`: the five-sample waveform
`[1,2,3,4,5]` at rates 3→2→3 succeeds with intermediate `[1,3,5]` and
result `[1, 7/3, 11/3, 5]`, whose length 4 is within the tolerance. -/
theorem resample_roundtrip_length_witness :
    resample_audio [(1 : ℚ), 2, 3, 4, 5] 3 2 = some [(1 : ℚ), 3, 5] ∧
    resample_audio [(1 : ℚ), 3, 5] 2 3 = some [(1 : ℚ), 7/3, 11/3, 5] ∧
    ([(1 : ℚ), 7/3, 11/3, 5] : List ℚ).length
      ≤ ([(1 : ℚ), 2, 3, 4, 5] : List ℚ).length ∧
    (([(1 : ℚ), 2, 3, 4, 5] : List ℚ).length : ℚ)
      < (([(1 : ℚ), 7/3, 11/3, 5] : List ℚ).length : ℚ) + 3 / 2 + 1 := by
  have hmid : resample_audio [(1 : ℚ), 2, 3, 4, 5] 3 2 = some [(1 : ℚ), 3, 5] := by
    with_unfolding_all rfl
  have hout : resample_audio [(1 : ℚ), 3, 5] 2 3
      = some [(1 : ℚ), 7/3, 11/3, 5] := by
    with_unfolding_all rfl
  have hb := (resample_roundtrip_length [(1 : ℚ), 2, 3, 4, 5] 3 2
      (by norm_num) (by norm_num)).2 [(1 : ℚ), 3, 5] [(1 : ℚ), 7/3, 11/3, 5]
      hmid hout
  exact ⟨hmid, hout, hb.1, hb.2⟩
